import Mathlib

/-!
Verification of the `ip-cidr` library.

This file gives a shallow embedding of the library's source:

* the generic CIDR block engine of `src/base.rs` (instantiated by the
  macro `impl_base_methods!` at `u32`/IPv4 and `u128`/IPv6, see
  `src/v4.rs` and `src/v6.rs`) — modelled here as functions over `Nat`
  parametrized by the bit width `W` (`W = 32` or `W = 128`), with machine
  integers represented as natural numbers and truncation made explicit
  via `% 2 ^ W`;
* the hand-written parser state machine of `src/parser.rs` — modelled as
  explicit state passing over a `Parser` structure (the immutable input
  `text` is passed as a separate parameter since the source never
  mutates it);
* the dual-family facade of `src/lib.rs`.
-/

namespace IpCidr

/-- IPv4 address bits from four octets, as `net::Ipv4Addr::new(a, b, c, d)`. -/
def mkIpv4 (a b c d : Nat) : Nat :=
  ((a * 256 + b) * 256 + c) * 256 + d

/-- IPv6 address bits from eight 16-bit components, as `net::Ipv6Addr::new`. -/
def mkIpv6 (a b c d e f g h : Nat) : Nat :=
  ((((((a * 65536 + b) * 65536 + c) * 65536 + d) * 65536 + e) * 65536 + f) * 65536 + g) * 65536 + h

/-- `mask(prefix)` from `src/base.rs`: `0` for `prefix == 0`, otherwise
`REPR::MAX << BITS_LEN.saturating_sub(prefix)` truncated to `W` bits.
`Nat` subtraction is saturating, matching `saturating_sub`. -/
def mask (W p : Nat) : Nat :=
  if p = 0 then 0 else ((2 ^ W - 1) <<< (W - p)) % 2 ^ W

/-- `network_addr(addr, prefix)` from `src/base.rs`: `addr & mask(prefix)`. -/
def network_addr (W addr p : Nat) : Nat :=
  addr &&& mask W p

/-- `broadcast_addr(addr, prefix)` from `src/base.rs`: `addr | !mask(prefix)`;
the `W`-bit complement of `m` is `(2 ^ W - 1) ^^^ m`. -/
def broadcast_addr (W addr p : Nat) : Nat :=
  addr ||| ((2 ^ W - 1) ^^^ mask W p)

/-- `size(prefix)` from `src/base.rs`: `REPR::MAX` for `prefix == 0`,
otherwise `1 << BITS_LEN.saturating_sub(prefix)`. -/
def size (W p : Nat) : Nat :=
  if p = 0 then 2 ^ W - 1 else 1 <<< (W - p)

/-- `Cidr<A>` from `src/base.rs`. The source field `prefix` is renamed to
`plen` because `prefix` is a reserved word in Lean; `addr` holds the
address bits. -/
structure Cidr where
  plen : Nat
  addr : Nat
  deriving DecidableEq

/-- `Cidr::new(addr, prefix)` from `src/base.rs`: `None` when the prefix
exceeds `A::BITS_LEN` (here the parameter `W`). -/
def Cidr.new (W addr p : Nat) : Option Cidr :=
  if p > W then none else some ⟨p, addr⟩

/-- `Cidr::network_addr(&self)` from `src/base.rs`. -/
def Cidr.network_addr (W : Nat) (c : Cidr) : Nat :=
  IpCidr.network_addr W c.addr c.plen

/-- `Cidr::broadcast_addr(&self)` from `src/base.rs`. -/
def Cidr.broadcast_addr (W : Nat) (c : Cidr) : Nat :=
  IpCidr.broadcast_addr W c.addr c.plen

/-- `Cidr::contains(&self, addr)` from `src/base.rs`. -/
def Cidr.contains (W : Nat) (c : Cidr) (addr : Nat) : Bool :=
  (addr &&& mask W c.plen) == c.network_addr W

/-- `Cidr::size(&self)` from `src/base.rs`. -/
def Cidr.size (W : Nat) (c : Cidr) : Nat :=
  IpCidr.size W c.plen

/-- `Cidr::get_unchecked(&self, idx)` from `src/base.rs`:
`network_addr.wrapping_add(idx)`, i.e. addition modulo `2 ^ W`. -/
def Cidr.get_unchecked (W : Nat) (c : Cidr) (idx : Nat) : Nat :=
  (c.network_addr W + idx) % 2 ^ W

/-- `Cidr::get(&self, idx)` from `src/base.rs`. -/
def Cidr.get (W : Nat) (c : Cidr) (idx : Nat) : Option Nat :=
  if idx ≥ c.size W then none else some (c.get_unchecked W idx)

/-- `net::IpAddr`: a tagged address; each variant carries the address bits. -/
inductive IpAddr where
  | v4 (bits : Nat)
  | v6 (bits : Nat)
  deriving DecidableEq

/-- The dual-family `Cidr` enum from `src/lib.rs` (named `Cidr` in the
source; renamed here to avoid the clash with `base::Cidr`). -/
inductive DualCidr where
  | V4 (c : Cidr)
  | V6 (c : Cidr)
  deriving DecidableEq

/-- `Cidr::size` from `src/lib.rs`; the `as _` widening of the `u32`
count to `u128` is the identity on `Nat`. -/
def DualCidr.size : DualCidr → Nat
  | .V4 c => c.size 32
  | .V6 c => c.size 128

/-- `Cidr::get` from `src/lib.rs`: the V4 arm truncates the `u128` index
with `idx as u32`, i.e. `% 2 ^ 32`. -/
def DualCidr.get : DualCidr → Nat → Option IpAddr
  | .V4 c, idx => (c.get 32 (idx % 2 ^ 32)).map IpAddr.v4
  | .V6 c, idx => (c.get 128 idx).map IpAddr.v6

/-- `Cidr::get_unchecked` from `src/lib.rs`: the V4 arm truncates the
`u128` index with `idx as u32`. -/
def DualCidr.get_unchecked : DualCidr → Nat → IpAddr
  | .V4 c, idx => .v4 (c.get_unchecked 32 (idx % 2 ^ 32))
  | .V6 c, idx => .v6 (c.get_unchecked 128 idx)

/-! ## The parser of `src/parser.rs`

The input text is a byte sequence, modelled as `List Nat`. Errors that
carry a `&str` slice in the source carry the corresponding byte list. -/

/-- Bytes of an ASCII string literal. -/
def strBytes (s : String) : List Nat :=
  s.data.map Char.toNat

/-- `ParseError` from `src/parser.rs` (only the variants, no `Display`). -/
inductive ParseError where
  | InvalidComponent (s : List Nat)
  | InvalidCidr (s : List Nat)
  | UnexpectedCharacter (ch pos : Nat)
  | InvalidIp
  | InvalidIpv4
  | Ipv4InvalidComponentSize (n : Nat)
  | Ipv4ComponentOverflow (n : Nat)
  | InvalidIpv6
  | Ipv6InvalidComponentSize (n : Nat)
  | Ipv6MultipleZeroAbbrv
  | NonAsciiCharacter (pos : Nat)
  | MissingIp
  | MissingCidr
  | Ipv4CidrPrefixOverflow (n : Nat)
  | Ipv6CidrPrefixOverflow (n : Nat)
  deriving DecidableEq

/-- `FamilyType` from `src/parser.rs`. -/
inductive FamilyType where
  | Unknown
  | V4
  | V6
  deriving DecidableEq

/-- `ParserState` from `src/parser.rs`. -/
inductive ParserState where
  | Initial
  | Digit
  | V4Sep
  | V6Sep
  deriving DecidableEq

/-- The `Parser` struct from `src/parser.rs`, without the immutable
`text` field, which is passed separately to each function that reads it.
`flags` is the `u8` flag set: bit `0b010` is `IS_IPV6_ZERO_SKIP`, bit
`0b100` is `IS_IPV6_SEP_INITIAL`. `components` always has length 8. -/
structure Parser where
  state : ParserState
  family : FamilyType
  flags : Nat
  components_size : Nat
  components : List Nat
  zero_component_start : Nat
  start_digit_position : Nat
  deriving DecidableEq

/-- `char::to_digit(radix)` on an ASCII byte, as used by `from_str_radix`. -/
def digitVal (radix b : Nat) : Option Nat :=
  if 48 ≤ b ∧ b ≤ 57 ∧ b - 48 < radix then some (b - 48)
  else if 97 ≤ b ∧ b ≤ 122 ∧ b - 87 < radix then some (b - 87)
  else if 65 ≤ b ∧ b ≤ 90 ∧ b - 55 < radix then some (b - 55)
  else none

/-- Digit-accumulation loop of `from_str_radix` for an unsigned integer
type with maximum value `max`: fails on an invalid digit or as soon as
the accumulator exceeds `max`. -/
def parseDigits (max radix : Nat) : List Nat → Nat → Option Nat
  | [], acc => some acc
  | b :: rest, acc =>
    match digitVal radix b with
    | none => none
    | some d =>
      let acc2 := acc * radix + d
      if acc2 > max then none else parseDigits max radix rest acc2

/-- `uN::from_str_radix(text, radix)` for the unsigned type with maximum
value `max` (`65535` for `u16`, `255` for `u8`): an optional leading `+`
sign, then at least one digit, overflow rejected. -/
def fromStrRadix (max radix : Nat) (s : List Nat) : Option Nat :=
  let s2 := if s.headD 0 = 43 then s.tail else s
  match s2 with
  | [] => none
  | _ :: _ => parseDigits max radix s2 0

/-- `u8::is_ascii_hexdigit`. -/
def isAsciiHexdigit (b : Nat) : Bool :=
  (48 ≤ b && b ≤ 57) || (97 ≤ b && b ≤ 102) || (65 ≤ b && b ≤ 70)

/-- `Parser::extract_component` from `src/parser.rs`: slices the digit
run `text[start_digit_position .. component_sep_pos]`, parses it in the
family's radix into a `u16`, and appends it to `components`. Returns the
updated state plus the optional error; early error returns leave the
state unchanged, exactly as a Rust `return Some(..)` leaves `self`. -/
def extract_component (text : List Nat) (self : Parser) (component_sep_pos : Nat) :
    Parser × Option ParseError :=
  let sub := (text.drop self.start_digit_position).take
    (component_sep_pos - self.start_digit_position)
  match self.family with
  | .Unknown => (self, none)
  | .V4 =>
    if self.components_size ≥ 4 then
      (self, some (.Ipv4InvalidComponentSize (self.components_size + 1)))
    else
      match fromStrRadix 65535 10 sub with
      | some component =>
        ({ self with
            components := self.components.set self.components_size component,
            components_size := self.components_size + 1,
            start_digit_position := 0 }, none)
      | none => (self, some (.InvalidComponent sub))
  | .V6 =>
    if self.components_size ≥ 8 then
      (self, some (.Ipv6InvalidComponentSize (self.components_size + 1)))
    else
      match fromStrRadix 65535 16 sub with
      | some component =>
        ({ self with
            components := self.components.set self.components_size component,
            components_size := self.components_size + 1,
            start_digit_position := 0 }, none)
      | none => (self, some (.InvalidComponent sub))

/-- `ptr::copy(components_ptr.add(src), components_ptr.add(dst), cnt)`
on the component buffer: memmove semantics, reading from the original
buffer. -/
def ptrCopy (l : List Nat) (src dst cnt : Nat) : List Nat :=
  (List.range l.length).map fun j =>
    if dst ≤ j ∧ j < dst + cnt then l.getD (src + (j - dst)) 0 else l.getD j 0

/-- `ptr::write_bytes(components_ptr.add(start), 0, cnt)`: zero-fill. -/
def writeBytesZero (l : List Nat) (start cnt : Nat) : List Nat :=
  (List.range l.length).map fun j =>
    if start ≤ j ∧ j < start + cnt then 0 else l.getD j 0

/-- The zero-run splice inside `Parser::read_ip` from `src/parser.rs`:
with `z = zero_component_start` and `s = components_size`, copy the
`s - z` collected components starting at `z` up by `zero_len = 8 - s`
slots, then zero-fill the vacated `zero_len` slots at `z`. -/
def splice_zero (comps : List Nat) (z s : Nat) : List Nat :=
  let zero_len := 8 - s
  writeBytesZero (ptrCopy comps z (z + zero_len) (s - z)) z zero_len

/-- The `read_octet!` macro inside `Parser::read_ip`: a `u16` component
must fit `0..=255`. -/
def read_octet (c : Nat) : Except ParseError Nat :=
  if c ≤ 255 then .ok c else .error (.Ipv4ComponentOverflow c)

/-- Build `net::Ipv6Addr::new` from the 8-slot component buffer. -/
def mkIpv6FromList (l : List Nat) : Nat :=
  mkIpv6 (l.getD 0 0) (l.getD 1 0) (l.getD 2 0) (l.getD 3 0)
    (l.getD 4 0) (l.getD 5 0) (l.getD 6 0) (l.getD 7 0)

/-- `Parser::read_ip` from `src/parser.rs`. -/
def read_ip (self : Parser) : Except ParseError IpAddr :=
  match self.family with
  | .V4 =>
    if self.components_size = 4 then do
      let a ← read_octet (self.components.getD 0 0)
      let b ← read_octet (self.components.getD 1 0)
      let c ← read_octet (self.components.getD 2 0)
      let f ← read_octet (self.components.getD 3 0)
      pure (.v4 (mkIpv4 a b c f))
    else .error (.Ipv4InvalidComponentSize self.components_size)
  | .V6 =>
    if self.components_size > 8 then .error .InvalidIpv6
    else if self.components_size < 8 then
      if self.flags &&& 2 = 2 then
        .ok (.v6 (mkIpv6FromList
          (splice_zero self.components self.zero_component_start self.components_size)))
      else .error (.Ipv6InvalidComponentSize self.components_size)
    else .ok (.v6 (mkIpv6FromList self.components))
  | .Unknown =>
    match self.state with
    | .Initial => .error .MissingIp
    | _ => .error .InvalidIp

/-- `Parser::on_digit` from `src/parser.rs`. -/
def on_digit (self : Parser) (pos : Nat) : Parser × Option ParseError :=
  match self.state with
  | .Digit => (self, none)
  | .V6Sep =>
    if self.flags &&& 4 = 4 then (self, some .InvalidIpv6)
    else ({ self with state := .Digit, start_digit_position := pos }, none)
  | _ => ({ self with state := .Digit, start_digit_position := pos }, none)

/-- `Parser::on_v4_sep` from `src/parser.rs`. A Rust `return` skips the
trailing `self.state = V4Sep` assignment, so those arms leave the state
unchanged. -/
def on_v4_sep (text : List Nat) (self : Parser) (pos : Nat) : Parser × Option ParseError :=
  match self.state, self.family with
  | .Digit, .V6 => (self, some .InvalidIpv6)
  | .Digit, .Unknown =>
    let r := extract_component text { self with family := .V4 } pos
    ({ r.1 with state := .V4Sep }, r.2)
  | .Digit, .V4 =>
    let r := extract_component text self pos
    ({ r.1 with state := .V4Sep }, r.2)
  | _, _ => ({ self with state := .V4Sep }, some .InvalidIpv4)

/-- `Parser::on_v6_sep` from `src/parser.rs`. In the second-separator
arm, `!IS_IPV6_SEP_INITIAL` is the `u8` complement of `0b100`, i.e.
`251`; both branches of that arm `return` early (the state is already
`V6Sep`). -/
def on_v6_sep (text : List Nat) (self : Parser) (pos : Nat) : Parser × Option ParseError :=
  match self.state with
  | .Digit =>
    match self.family with
    | .V4 => (self, some .InvalidIpv4)
    | .Unknown =>
      let r := extract_component text { self with family := .V6 } pos
      ({ r.1 with state := .V6Sep }, r.2)
    | .V6 =>
      let r := extract_component text self pos
      ({ r.1 with state := .V6Sep }, r.2)
  | .V6Sep =>
    if self.flags &&& 2 = 2 then (self, some .Ipv6MultipleZeroAbbrv)
    else
      ({ self with
          flags := (self.flags &&& 251) ||| 2,
          zero_component_start := self.components_size,
          family := .V6 }, none)
  | .Initial => ({ self with flags := self.flags ||| 4, state := .V6Sep }, none)
  | .V4Sep => ({ self with state := .V6Sep }, some .InvalidIpv4)

/-- `Parser::on_ip_end` from `src/parser.rs`. The result is the final
value of the parse, so the post-call parser state is discarded. -/
def on_ip_end (text : List Nat) (self : Parser) (pos : Nat) : Except ParseError IpAddr :=
  match self.state with
  | .Digit =>
    match extract_component text self pos with
    | (self2, none) => read_ip self2
    | (_, some e) => .error e
  | .V4Sep => .error .InvalidIpv4
  | .V6Sep =>
    if self.flags &&& 2 = 2 then
      if self.components_size = 0 then .ok (.v6 (mkIpv6 0 0 0 0 0 0 0 0))
      else read_ip self
    else .error .InvalidIpv6
  | .Initial => .error .MissingIp

/-- `Parser::on_cidr_sep` from `src/parser.rs`: the bytes after the `/`
are parsed with `u8::from_str_radix(text, 10)` and checked against the
recognized family's `BITS_LEN`. -/
def on_cidr_sep (text : List Nat) (self : Parser) (pos : Nat) : Except ParseError Nat :=
  let digit_pos := pos + 1
  if digit_pos ≥ text.length then .error .MissingCidr
  else
    let sub := text.drop digit_pos
    match fromStrRadix 255 10 sub with
    | some result =>
      match self.family with
      | .V4 => if result > 32 then .error (.Ipv4CidrPrefixOverflow result) else .ok result
      | .V6 => if result > 128 then .error (.Ipv6CidrPrefixOverflow result) else .ok result
      | .Unknown => .error (.InvalidCidr sub)
    | none => .error (.InvalidCidr sub)

/-- The loop of `Parser::parse` from `src/parser.rs`. The loop condition
`idx < text.len()` is expressed through `fuel`, which is always invoked
as `text.length - idx`, so `fuel = 0` exactly when the loop exits and
finalizes via `on_ip_end`. `on_ip_end` cannot change `family`, the one
field `on_cidr_sep` reads, so the `/` arm passes `self` to both. The
two trailing character arms of the source both produce
`UnexpectedCharacter`. -/
def runFrom (text : List Nat) (self : Parser) (idx : Nat) :
    Nat → Except ParseError (IpAddr × Option Nat)
  | 0 =>
    match on_ip_end text self idx with
    | .ok ip => .ok (ip, none)
    | .error e => .error e
  | fuel + 1 =>
    let ch := text.getD idx 0
    if isAsciiHexdigit ch then
      match on_digit self idx with
      | (self2, none) => runFrom text self2 (idx + 1) fuel
      | (_, some e) => .error e
    else if ch = 46 then
      match on_v4_sep text self idx with
      | (self2, none) => runFrom text self2 (idx + 1) fuel
      | (_, some e) => .error e
    else if ch = 58 then
      match on_v6_sep text self idx with
      | (self2, none) => runFrom text self2 (idx + 1) fuel
      | (_, some e) => .error e
    else if ch = 47 then
      match on_ip_end text self idx with
      | .ok ip =>
        match on_cidr_sep text self idx with
        | .ok cidr => .ok (ip, some cidr)
        | .error e => .error e
      | .error e => .error e
    else .error (.UnexpectedCharacter ch idx)

/-- `parse_ip` from `src/parser.rs`. -/
def parse_ip (text : List Nat) : Except ParseError (IpAddr × Option Nat) :=
  runFrom text
    { state := .Initial, family := .Unknown, flags := 0, components_size := 0,
      components := List.replicate 8 0, zero_component_start := 0,
      start_digit_position := 0 }
    0 text.length

/-- Value of a digit string under the accumulation step of
`parseDigits`: a left fold of `acc * radix + digit`. -/
def foldVal (radix acc : Nat) (s : List Nat) : Nat :=
  s.foldl (fun a b => a * radix + (digitVal radix b).getD 0) acc

deriving instance DecidableEq for Except

/-! ## Helper lemmas -/

theorem mask_lt (W p : Nat) : mask W p < 2 ^ W := by
  unfold mask
  split
  · exact Nat.two_pow_pos W
  · exact Nat.mod_lt _ (Nat.two_pow_pos W)

theorem testBit_mask_false (W p i : Nat) (h : W ≤ i) : (mask W p).testBit i = false :=
  Nat.testBit_lt_two_pow (lt_of_lt_of_le (mask_lt W p) (Nat.pow_le_pow_right (by norm_num) h))

theorem network_addr_lt (W : Nat) (c : Cidr) : c.network_addr W < 2 ^ W :=
  lt_of_le_of_lt Nat.and_le_right (mask_lt W c.plen)

theorem size_pos (W p : Nat) (hW : 0 < W) : 0 < size W p := by
  unfold size
  split
  · have : 1 < 2 ^ W := Nat.one_lt_two_pow (by omega)
    omega
  · rw [Nat.shiftLeft_eq, one_mul]
    exact Nat.two_pow_pos _

/-! ## Claim theorems -/

/-- C1: for every `prefix` in `1..=W`, `size(prefix) = 2 ^ (W - prefix)`;
`size(0)` is the representation maximum `2 ^ W - 1`, not `2 ^ W`
(`W = 32` for IPv4, `W = 128` for IPv6). -/
theorem size_spec :
    (∀ W p : Nat, 1 ≤ p → p ≤ W → size W p = 2 ^ (W - p)) ∧
    (∀ W : Nat, size W 0 = 2 ^ W - 1) ∧
    (∀ W : Nat, size W 0 ≠ 2 ^ W) := by
  refine ⟨fun W p h1 _ => ?_, fun W => ?_, fun W => ?_⟩
  · unfold size
    rw [if_neg (by omega), Nat.shiftLeft_eq, one_mul]
  · rfl
  · unfold size
    rw [if_pos rfl]
    have := Nat.two_pow_pos W
    omega

/-- Witness for C1 at `W = 32`, `p = 8` and at `W = 128`, `p = 0`. -/
theorem size_spec_witness : size 32 8 = 2 ^ 24 ∧ size 128 0 = 2 ^ 128 - 1 :=
  ⟨size_spec.1 32 8 (by decide) (by decide), size_spec.2.1 128⟩

/-- C2: `get(cidr, idx)` is `none` exactly when `idx ≥ size(cidr.prefix)`;
otherwise it is `some` of the address `get_unchecked(cidr, idx)` returns. -/
theorem get_spec : ∀ (W : Nat) (c : Cidr) (idx : Nat),
    (c.get W idx = none ↔ c.size W ≤ idx) ∧
    (idx < c.size W → c.get W idx = some (c.get_unchecked W idx)) := by
  intro W c idx
  unfold Cidr.get
  constructor
  · split
    · simp
      omega
    · simp
      omega
  · intro h
    rw [if_neg (by omega)]

/-- Witness for C2: the IPv4 block `0.0.0.0/31` at index `1`. -/
theorem get_spec_witness : Cidr.get 32 ⟨31, 0⟩ 1 = some 1 :=
  ((get_spec 32 ⟨31, 0⟩ 1).2 (by decide)).trans (by decide)

/-- C5: a CIDR block constructed from any address and admissible prefix
contains its own network address and its own broadcast address. -/
theorem contains_spec : ∀ (W a p : Nat) (c : Cidr), Cidr.new W a p = some c →
    c.contains W (network_addr W a p) = true ∧
    c.contains W (broadcast_addr W a p) = true := by
  intro W a p c h
  have hc : c = ⟨p, a⟩ := by
    unfold Cidr.new at h
    split at h
    · exact absurd h (by simp)
    · exact (Option.some_inj.mp h).symm
  subst hc
  constructor
  · simp only [Cidr.contains, Cidr.network_addr, network_addr, beq_iff_eq]
    rw [Nat.and_assoc, Nat.and_self]
  · simp only [Cidr.contains, Cidr.network_addr, network_addr, broadcast_addr, beq_iff_eq]
    apply Nat.eq_of_testBit_eq
    intro i
    simp only [Nat.testBit_and, Nat.testBit_or, Nat.testBit_xor]
    by_cases hiW : i < W
    · have hT : (2 ^ W - 1).testBit i = true := by
        simp [Nat.testBit_two_pow_sub_one, hiW]
      rw [hT]
      cases hm : (mask W p).testBit i <;> cases a.testBit i <;> simp
    · rw [testBit_mask_false W p i (by omega)]
      simp

/-- Witness for C5: the IPv4 block `10.0.0.0/8`. -/
theorem contains_spec_witness :
    Cidr.contains 32 ⟨8, mkIpv4 10 0 0 0⟩ (network_addr 32 (mkIpv4 10 0 0 0) 8) = true ∧
    Cidr.contains 32 ⟨8, mkIpv4 10 0 0 0⟩ (broadcast_addr 32 (mkIpv4 10 0 0 0) 8) = true :=
  contains_spec 32 (mkIpv4 10 0 0 0) 8 ⟨8, mkIpv4 10 0 0 0⟩ (by decide)

/-- C6: `get_unchecked(cidr, idx)` is `network_addr + idx` modulo `2 ^ W`
and is total; on the IPv4 block `255.255.255.30/31`, index `225` wraps to
`255.255.255.255` and index `226` wraps to `0.0.0.0`. -/
theorem get_unchecked_spec :
    (∀ (W : Nat) (c : Cidr) (idx : Nat),
        c.get_unchecked W idx = (c.network_addr W + idx) % 2 ^ W) ∧
    Cidr.get_unchecked 32 ⟨31, mkIpv4 255 255 255 30⟩ 225 = mkIpv4 255 255 255 255 ∧
    Cidr.get_unchecked 32 ⟨31, mkIpv4 255 255 255 30⟩ 226 = mkIpv4 0 0 0 0 :=
  ⟨fun _ _ _ => rfl, by decide, by decide⟩

/-- C7: `Cidr::new(addr, prefix)` fails exactly when `prefix > BITS_LEN`,
and otherwise stores `addr` and `prefix` unchanged, so every
constructible value satisfies `prefix ≤ BITS_LEN` (the value is
immutable: no operation returns a modified `Cidr`). -/
theorem new_spec : ∀ W a p : Nat,
    (Cidr.new W a p = none ↔ W < p) ∧
    (∀ c : Cidr, Cidr.new W a p = some c → c.addr = a ∧ c.plen = p ∧ p ≤ W) := by
  intro W a p
  unfold Cidr.new
  constructor
  · split
    · simp
      omega
    · simp
      omega
  · intro c h
    split at h
    · exact absurd h (by simp)
    · obtain rfl := (Option.some_inj.mp h).symm
      exact ⟨rfl, rfl, by omega⟩

/-- Witness for C7: rejected at `33 > 32`, accepted at `24 ≤ 32`. -/
theorem new_spec_witness :
    Cidr.new 32 5 33 = none ∧
    (Cidr.addr ⟨24, 5⟩ = 5 ∧ Cidr.plen ⟨24, 5⟩ = 24 ∧ 24 ≤ 32) :=
  ⟨(new_spec 32 5 33).1.mpr (by decide), (new_spec 32 5 24).2 ⟨24, 5⟩ (by decide)⟩

/-- C10: the facade's V4 arms of `get`/`get_unchecked` truncate the
`u128` index to its low 32 bits before delegating; consequently, on any
V4 block the out-of-bounds index `2 ^ 32 ≥ size` makes `get` return
`some` (the network address) instead of `none`. -/
theorem facade_get_spec :
    (∀ (c : Cidr) (idx : Nat),
        DualCidr.get (.V4 c) idx = (c.get 32 (idx % 2 ^ 32)).map IpAddr.v4 ∧
        DualCidr.get_unchecked (.V4 c) idx = .v4 (c.get_unchecked 32 (idx % 2 ^ 32))) ∧
    (∀ c : Cidr,
        DualCidr.size (.V4 c) ≤ 2 ^ 32 ∧
        DualCidr.get (.V4 c) (2 ^ 32) = some (.v4 (c.network_addr 32))) := by
  constructor
  · exact fun c idx => ⟨rfl, rfl⟩
  · intro c
    constructor
    · show Cidr.size 32 c ≤ 2 ^ 32
      unfold Cidr.size size
      split
      · omega
      · rw [Nat.shiftLeft_eq, one_mul]
        exact Nat.pow_le_pow_right (by norm_num) (Nat.sub_le 32 _)
    · show (Cidr.get 32 c (2 ^ 32 % 2 ^ 32)).map IpAddr.v4 = some (.v4 (c.network_addr 32))
      rw [Nat.mod_self]
      unfold Cidr.get
      have hpos : 0 < Cidr.size 32 c := size_pos 32 c.plen (by norm_num)
      rw [if_neg (by omega)]
      have : c.get_unchecked 32 0 = c.network_addr 32 := by
        unfold Cidr.get_unchecked
        rw [Nat.add_zero, Nat.mod_eq_of_lt (network_addr_lt 32 c)]
      rw [this]
      rfl

/-! ## Parser helper lemmas -/

theorem getD_range_map (n : Nat) (f : Nat → Nat) (i : Nat) (hi : i < n) :
    ((List.range n).map f).getD i 0 = f i := by
  simp [List.getD_eq_getElem?_getD, List.getElem?_map, List.getElem?_range, hi]

theorem ptrCopy_length (l : List Nat) (src dst cnt : Nat) :
    (ptrCopy l src dst cnt).length = l.length := by
  simp [ptrCopy]

theorem getD_splice_zero (comps : List Nat) (z s i : Nat) (hlen : comps.length = 8)
    (hzs : z ≤ s) (hs : s < 8) (hi : i < 8) :
    (splice_zero comps z s).getD i 0 =
      if i < z then comps.getD i 0
      else if i < z + (8 - s) then 0
      else comps.getD (i - (8 - s)) 0 := by
  simp only [splice_zero, writeBytesZero]
  rw [ptrCopy_length, hlen, getD_range_map 8 _ i hi]
  by_cases h1 : z ≤ i ∧ i < z + (8 - s)
  · rw [if_pos h1, if_neg (by omega), if_pos (by omega)]
  · rw [if_neg h1]
    unfold ptrCopy
    rw [hlen, getD_range_map 8 _ i hi]
    by_cases h2 : i < z
    · rw [if_neg (by omega), if_pos h2]
    · have hge : z + (8 - s) ≤ i := by omega
      rw [if_pos ⟨hge, by omega⟩, if_neg (by omega), if_neg (by omega)]
      congr 1
      omega

theorem digitVal_hex (b : Nat) (h : isAsciiHexdigit b = true) :
    ∃ d, digitVal 16 b = some d ∧ d < 16 := by
  unfold isAsciiHexdigit at h
  simp only [Bool.or_eq_true, Bool.and_eq_true, decide_eq_true_eq] at h
  unfold digitVal
  split
  · next h1 => exact ⟨b - 48, rfl, by omega⟩
  · split
    · next h2 => exact ⟨b - 87, rfl, by omega⟩
    · split
      · next h3 => exact ⟨b - 55, rfl, by omega⟩
      · next h1 h2 h3 =>
        exfalso
        omega

theorem foldVal_cons (radix acc b : Nat) (rest : List Nat) :
    foldVal radix acc (b :: rest) = foldVal radix (acc * radix + (digitVal radix b).getD 0) rest :=
  rfl

theorem le_foldVal (radix : Nat) (hr : 1 ≤ radix) :
    ∀ (s : List Nat) (acc : Nat), acc ≤ foldVal radix acc s := by
  intro s
  induction s with
  | nil => intro acc; exact Nat.le_refl acc
  | cons b rest ih =>
    intro acc
    rw [foldVal_cons]
    calc acc ≤ acc * radix + (digitVal radix b).getD 0 := by
          have : acc * 1 ≤ acc * radix := Nat.mul_le_mul_left acc hr
          omega
      _ ≤ foldVal radix (acc * radix + (digitVal radix b).getD 0) rest := ih _

theorem parseDigits_hex :
    ∀ (s : List Nat) (acc : Nat), (∀ b ∈ s, isAsciiHexdigit b = true) → acc ≤ 65535 →
      parseDigits 65535 16 s acc =
        if foldVal 16 acc s ≤ 65535 then some (foldVal 16 acc s) else none := by
  intro s
  induction s with
  | nil =>
    intro acc _ hacc
    simp [parseDigits, foldVal, hacc]
  | cons b rest ih =>
    intro acc hall hacc
    obtain ⟨d, hd, hd16⟩ := digitVal_hex b (hall b (List.mem_cons_self b rest))
    rw [foldVal_cons, hd]
    simp only [parseDigits, hd, Option.getD_some]
    by_cases hov : acc * 16 + d > 65535
    · rw [if_pos hov]
      have hmono := le_foldVal 16 (by norm_num) rest (acc * 16 + d)
      rw [if_neg (by omega)]
    · rw [if_neg hov]
      exact ih (acc * 16 + d) (fun x hx => hall x (List.mem_cons_of_mem b hx)) (by omega)

theorem foldVal_lt_pow :
    ∀ (s : List Nat) (acc : Nat), (∀ b ∈ s, isAsciiHexdigit b = true) →
      foldVal 16 acc s < (acc + 1) * 16 ^ s.length := by
  intro s
  induction s with
  | nil =>
    intro acc _
    simp [foldVal]
  | cons b rest ih =>
    intro acc hall
    obtain ⟨d, hd, hd16⟩ := digitVal_hex b (hall b (List.mem_cons_self b rest))
    rw [foldVal_cons, hd]
    simp only [Option.getD_some, List.length_cons]
    calc foldVal 16 (acc * 16 + d) rest
        < (acc * 16 + d + 1) * 16 ^ rest.length :=
          ih _ (fun x hx => hall x (List.mem_cons_of_mem b hx))
      _ ≤ ((acc + 1) * 16) * 16 ^ rest.length :=
          Nat.mul_le_mul_right _ (by omega)
      _ = (acc + 1) * 16 ^ (rest.length + 1) := by ring

theorem fromStrRadix_nil (max radix : Nat) : fromStrRadix max radix [] = none :=
  rfl

theorem fromStrRadix_hex (s : List Nat) (hne : s ≠ [])
    (hall : ∀ b ∈ s, isAsciiHexdigit b = true) :
    fromStrRadix 65535 16 s =
      if foldVal 16 0 s ≤ 65535 then some (foldVal 16 0 s) else none := by
  have h43 : s.headD 0 ≠ 43 := by
    cases s with
    | nil => exact absurd rfl hne
    | cons b rest =>
      have hb := hall b (List.mem_cons_self b rest)
      simp only [isAsciiHexdigit, Bool.or_eq_true, Bool.and_eq_true, decide_eq_true_eq] at hb
      simp only [List.headD_cons]
      omega
  simp only [fromStrRadix]
  rw [if_neg h43]
  cases s with
  | nil => exact absurd rfl hne
  | cons b rest => exact parseDigits_hex (b :: rest) 0 hall (by omega)

/-! ## Parser claim theorems -/

/-- C3: on a successful IPv6 parse with fewer than 8 explicit components
and one `::`, `read_ip` splices zero components at the recorded start
index, shifting the components collected after it right and zero-filling
the gap so that exactly 8 components result; a second `::` (a `:` seen
in state `V6Sep` with the zero-skip flag already set) errors with
`Ipv6MultipleZeroAbbrv`. Concretely: `::1:2:3:4:5` parses to
`0:0:0:1:2:3:4:5`, `1:2:3:4:5::` to `1:2:3:4:5:0:0:0`, and `0:::` fails
with `Ipv6MultipleZeroAbbrv`. -/
theorem zero_splice_spec :
    (∀ st : Parser, st.family = .V6 → st.flags &&& 2 = 2 → st.components_size < 8 →
        read_ip st = .ok (.v6 (mkIpv6FromList
          (splice_zero st.components st.zero_component_start st.components_size)))) ∧
    (∀ (comps : List Nat) (z s i : Nat), comps.length = 8 → z ≤ s → s < 8 → i < 8 →
        (splice_zero comps z s).getD i 0 =
          if i < z then comps.getD i 0
          else if i < z + (8 - s) then 0
          else comps.getD (i - (8 - s)) 0) ∧
    (∀ (text : List Nat) (st : Parser) (pos : Nat),
        st.state = .V6Sep → st.flags &&& 2 = 2 →
        on_v6_sep text st pos = (st, some .Ipv6MultipleZeroAbbrv)) ∧
    parse_ip (strBytes "::1:2:3:4:5") = .ok (.v6 (mkIpv6 0 0 0 1 2 3 4 5), none) ∧
    parse_ip (strBytes "1:2:3:4:5::") = .ok (.v6 (mkIpv6 1 2 3 4 5 0 0 0), none) ∧
    parse_ip (strBytes "0:::") = .error .Ipv6MultipleZeroAbbrv := by
  refine ⟨?_, getD_splice_zero, ?_, by decide, by decide, by decide⟩
  · intro st hf hflag hs
    simp only [read_ip, hf]
    rw [if_neg (by omega), if_pos hs, if_pos hflag]
  · intro text st pos hstate hflag
    simp only [on_v6_sep, hstate]
    rw [if_pos hflag]

/-- Witness for C3: the splice on the buffer of `1:2:3:4:5::`
(`z = s = 5`) zero-fills slot 6, and `read_ip` on the corresponding
parser state returns the spliced address. -/
theorem zero_splice_spec_witness :
    (splice_zero [1, 2, 3, 4, 5, 0, 0, 0] 5 5).getD 6 0 = 0 ∧
    read_ip ⟨.V6Sep, .V6, 2, 5, [1, 2, 3, 4, 5, 0, 0, 0], 5, 0⟩ =
      .ok (.v6 (mkIpv6FromList (splice_zero [1, 2, 3, 4, 5, 0, 0, 0] 5 5))) :=
  ⟨(zero_splice_spec.2.1 [1, 2, 3, 4, 5, 0, 0, 0] 5 5 6 rfl (Nat.le_refl 5)
      (by decide) (by decide)).trans (by decide),
    zero_splice_spec.1 ⟨.V6Sep, .V6, 2, 5, [1, 2, 3, 4, 5, 0, 0, 0], 5, 0⟩
      rfl (by decide) (by decide)⟩

/-- C4: evaluation of the code at the claim's input. The repo's own
tests (`tests/ipv4.rs`) assert `InvalidComponent("256")` and
`InvalidComponent("900")`, but `extract_component` parses IPv4
components with `u16::from_str_radix`, so values `256..=65535` survive
extraction and `read_ip` reports them as `Ipv4ComponentOverflow`
instead. -/
theorem ipv4_component_overflow_eval :
    parse_ip (strBytes "256.0.0.1") = .error (.Ipv4ComponentOverflow 256) ∧
    parse_ip (strBytes "127.1.0.900") = .error (.Ipv4ComponentOverflow 900) :=
  ⟨by decide, by decide⟩

/-- C8 counterexample: `0.0.0.0/300` is a valid address, `/`, and a
base-10 numeral exceeding 32, yet the parse fails with
`InvalidCidr("300")`, not `Ipv4CidrPrefixOverflow(300)`, because the
suffix is parsed with `u8::from_str_radix` and 300 does not fit `u8`. -/
theorem cidr_overflow_counterexample :
    parse_ip (strBytes "0.0.0.0/300") = .error (.InvalidCidr (strBytes "300")) := by
  decide

/-- C8 (amended): when the base-10 numeral after `/` fits the `u8`
prefix field (value at most 255) and exceeds the family's bit width,
`on_cidr_sep` fails with the family's prefix-overflow error carrying the
value; in particular `ffff::/129` fails with
`Ipv6CidrPrefixOverflow(129)`. -/
theorem cidr_overflow_spec :
    (∀ (text : List Nat) (st : Parser) (pos r : Nat), st.family = .V4 →
        fromStrRadix 255 10 (text.drop (pos + 1)) = some r → r > 32 →
        on_cidr_sep text st pos = .error (.Ipv4CidrPrefixOverflow r)) ∧
    (∀ (text : List Nat) (st : Parser) (pos r : Nat), st.family = .V6 →
        fromStrRadix 255 10 (text.drop (pos + 1)) = some r → r > 128 →
        on_cidr_sep text st pos = .error (.Ipv6CidrPrefixOverflow r)) ∧
    parse_ip (strBytes "ffff::/129") = .error (.Ipv6CidrPrefixOverflow 129) := by
  refine ⟨?_, ?_, by decide⟩
  · intro text st pos r hf hp hr
    have hlen : ¬ pos + 1 ≥ text.length := by
      intro hge
      rw [List.drop_eq_nil_of_le hge, fromStrRadix_nil] at hp
      exact Option.noConfusion hp
    simp only [on_cidr_sep, hf, hp]
    rw [if_neg hlen, if_pos hr]
  · intro text st pos r hf hp hr
    have hlen : ¬ pos + 1 ≥ text.length := by
      intro hge
      rw [List.drop_eq_nil_of_le hge, fromStrRadix_nil] at hp
      exact Option.noConfusion hp
    simp only [on_cidr_sep, hf, hp]
    rw [if_neg hlen, if_pos hr]

/-- Witness for C8: `on_cidr_sep` on `/129` with family V6. -/
theorem cidr_overflow_spec_witness :
    on_cidr_sep (strBytes "/129") ⟨.Initial, .V6, 0, 0, List.replicate 8 0, 0, 0⟩ 0 =
      .error (.Ipv6CidrPrefixOverflow 129) :=
  cidr_overflow_spec.2.1 (strBytes "/129") ⟨.Initial, .V6, 0, 0, List.replicate 8 0, 0, 0⟩
    0 129 rfl (by decide) (by decide)

/-- C9 counterexample: `00000::` contains a component of 5 hex digits,
yet the parse succeeds (as `::`), because component extraction only
rejects values that overflow `u16`, not digit counts. -/
theorem hexgroup_counterexample :
    parse_ip (strBytes "00000::") = .ok (.v6 (mkIpv6 0 0 0 0 0 0 0 0), none) := by
  decide

/-- C9 (amended): an IPv6 hexgroup is accepted exactly when its
hexadecimal value fits `u16` (at most 65535): `from_str_radix` on a
nonempty run of hex digits returns its value iff that value is at most
65535, so every 1-4 digit group is accepted, and a group of more than 4
digits fails only when its value overflows — e.g. `1ffff::` fails with
`InvalidComponent("1ffff")` while `ffff::1` parses. -/
theorem hexgroup_spec :
    (∀ s : List Nat, s ≠ [] → (∀ b ∈ s, isAsciiHexdigit b = true) →
        fromStrRadix 65535 16 s =
          if foldVal 16 0 s ≤ 65535 then some (foldVal 16 0 s) else none) ∧
    (∀ s : List Nat, s ≠ [] → (∀ b ∈ s, isAsciiHexdigit b = true) → s.length ≤ 4 →
        fromStrRadix 65535 16 s = some (foldVal 16 0 s)) ∧
    parse_ip (strBytes "1ffff::") = .error (.InvalidComponent (strBytes "1ffff")) ∧
    parse_ip (strBytes "ffff::1") = .ok (.v6 (mkIpv6 65535 0 0 0 0 0 0 1), none) := by
  refine ⟨fromStrRadix_hex, ?_, by decide, by decide⟩
  intro s hne hall hlen4
  rw [fromStrRadix_hex s hne hall]
  have hlt := foldVal_lt_pow s 0 hall
  rw [Nat.zero_add, one_mul] at hlt
  have hpow : 16 ^ s.length ≤ 65536 := by
    calc 16 ^ s.length ≤ 16 ^ 4 := Nat.pow_le_pow_right (by norm_num) hlen4
      _ = 65536 := by norm_num
  rw [if_pos (by omega)]

/-- Witness for C9: the 2-digit group `ff` evaluates to 255. -/
theorem hexgroup_spec_witness : fromStrRadix 65535 16 (strBytes "ff") = some 255 :=
  (hexgroup_spec.2.1 (strBytes "ff") (by decide) (by decide) (by decide)).trans (by decide)

end IpCidr
